import Mathlib

/-!
Shallow embedding of `src/part1_webscraping/scripts/web_scraper.py`, a
sequential three-stage web scraper (page discovery, article discovery,
article extraction) followed by a CSV writer built on pandas.

Modelling conventions:
* An HTTP GET is a total function `String → Nat × Page` giving the status
  code and the parsed payload of the response body; each stage parses a
  different fragment of the page, so each stage takes its own fetch
  function whose payload type carries exactly the parse results that
  stage reads (pagination hrefs, article cards, metadata fields).
* Python `set` objects become `Finset String`; insertion is `insert`,
  the iteration order of a Python set is unspecified so nothing below
  depends on an order of set elements.
* `print` warnings become an explicit log (`List String`) returned next
  to each stage's result, in chronological order.
* Uncaught Python exceptions (attribute/key errors on missing HTML
  nodes) become `Option`/`none`: a `none` aborts the stage, mirroring
  the process terminating, and drops whatever would have been printed
  after the crash point.
* `BeautifulSoup.get_text(strip = True)` and `str.strip()` are
  modelled by `pyStrip` (strip whitespace at both ends);
  `str.strip("\n")` strips newline characters only and is modelled by
  `stripNewlines`.
-/

namespace GSEScraper

/-- The hardcoded site base URL (`repo_base_url` in the source). -/
def repo_base_url : String := "https://scale.stanford.edu"

/-- The warning line printed for a non-200 response:
`f"Warning: Failed to retrieve {url} (status: {status})."`. -/
def warnMsg (url : String) (status : Nat) : String :=
  "Warning: Failed to retrieve " ++ url ++ " (status: " ++ toString status ++ ")."

/-- Python `str.strip("\n")`: remove leading and trailing newline
characters (and only newlines) from a string. -/
def stripNewlines (s : String) : String :=
  String.mk (((s.data.dropWhile (fun c => c = '\n')).reverse.dropWhile
    (fun c => c = '\n')).reverse)

/-- Python `str.strip()` / BeautifulSoup `get_text(strip = True)`:
remove leading and trailing whitespace from a string. -/
def pyStrip (s : String) : String :=
  String.mk (((s.data.dropWhile Char.isWhitespace).reverse.dropWhile
    Char.isWhitespace).reverse)

/-! ### Stage 1: page discovery (`identify_pages_to_scrape`) -/

/-- Parse result of a search-results page, as read by stage 1: the
`href` attributes of the `ul.pagination li a.page-link` elements, in
document order. -/
structure SearchPage where
  pagination : List String
deriving DecidableEq, Repr

/-- Resolution of a pagination href against the fixed site base path:
`repo_base_url + "/genai/repository" + page['href']`. -/
def resolvePage (href : String) : String :=
  repo_base_url ++ "/genai/repository" ++ href

/-- `identify_pages_to_scrape`: for each seed URL, GET it; on non-200
log a warning and skip; if the page has no pagination links add the
seed itself; otherwise add every pagination href resolved by
`resolvePage`.  Returns the set of listing pages and the warning log.
The source's `for` loop over `search_urls` is rendered as recursion on
the seed list; the result set is order-insensitive and the warnings
are kept in chronological order. -/
def identify_pages_to_scrape (fetch : String → Nat × SearchPage) :
    List String → Finset String × List String
  | [] => (∅, [])
  | u :: us =>
    let status := (fetch u).1
    let page := (fetch u).2
    let rest := identify_pages_to_scrape fetch us
    if status ≠ 200 then
      (rest.1, warnMsg u status :: rest.2)
    else if page.pagination = [] then
      (insert u rest.1, rest.2)
    else
      (page.pagination.foldl (fun acc h => insert (resolvePage h) acc) rest.1,
       rest.2)

/-! ### Stage 2: article discovery (`identify_articles_to_scrape`) -/

/-- Parse result of one article summary card (`ul.list-papers li.col`):
the text of its `div.card a[hreflang='en']` anchor and the `href` of
its `div.card a[href]` anchor, each `none` when the selector finds no
element (in which case the source crashes on attribute access). -/
structure Card where
  titleAnchorText : Option String
  hrefAnchor : Option String
deriving DecidableEq, Repr

/-- Parse result of a listing page, as read by stage 2: its article
summary cards in document order. -/
structure ListingPage where
  cards : List Card
deriving DecidableEq, Repr

/-- The inner `for article in articles_to_parse` loop: threads the pair
(`article_titles`, `articles_to_scrape`) through the cards of one page.
A card whose (stripped) title was already seen contributes nothing;
otherwise the title is recorded and `repo_base_url + href` is added.
`none` models the uncaught crash when a selector finds no element. -/
def procCards : List Card → Finset String × Finset String →
    Option (Finset String × Finset String)
  | [], st => some st
  | c :: cs, st =>
    match c.titleAnchorText with
    | none => none
    | some t =>
      let article_title := pyStrip t
      if article_title ∈ st.1 then
        procCards cs st
      else
        match c.hrefAnchor with
        | none => none
        | some h =>
          procCards cs (insert article_title st.1,
                        insert (repo_base_url ++ h) st.2)

/-- The outer loop of `identify_articles_to_scrape`: for each page URL,
GET it; on non-200 log a warning and skip; otherwise run `procCards`
on its cards, threading the title/url state page to page.  A crash
(`none` from `procCards`) aborts the whole stage. -/
def articlesLoop (fetch : String → Nat × ListingPage) :
    List String → Finset String × Finset String →
    Option (Finset String × Finset String) × List String
  | [], st => (some st, [])
  | u :: us, st =>
    let status := (fetch u).1
    let page := (fetch u).2
    if status ≠ 200 then
      let rest := articlesLoop fetch us st
      (rest.1, warnMsg u status :: rest.2)
    else
      match procCards page.cards st with
      | none => (none, [])
      | some st' => articlesLoop fetch us st'

/-- `identify_articles_to_scrape`: run the page loop from empty
title/url sets and return the article-URL set (the titles set is local
to the function) together with the warning log. -/
def identify_articles_to_scrape (fetch : String → Nat × ListingPage)
    (page_urls : List String) : Option (Finset String) × List String :=
  let r := articlesLoop fetch page_urls (∅, ∅)
  (r.1.map Prod.snd, r.2)

/-- The cards stage 2 actually iterates over: concatenation, in page
order, of the cards of every page whose fetch returned 200. -/
def flatCards (fetch : String → Nat × ListingPage) : List String → List Card
  | [] => []
  | u :: us =>
    if (fetch u).1 ≠ 200 then flatCards fetch us
    else (fetch u).2.cards ++ flatCards fetch us

/-- Specification companion to `procCards`: the (title, url) pairs of
exactly those cards that contribute a URL — the first card of each not
yet seen (stripped) title.  Stops at a card the source would crash on
(such a run never reaches `some` anyway). -/
def listContrib : List Card → Finset String → List (String × String)
  | [], _ => []
  | c :: cs, titles =>
    match c.titleAnchorText with
    | none => []
    | some t =>
      let title := pyStrip t
      if title ∈ titles then listContrib cs titles
      else
        match c.hrefAnchor with
        | none => []
        | some h => (title, repo_base_url ++ h) :: listContrib cs (insert title titles)

/-! ### Field parser (`extract_metadata_field`) and stage 3 -/

/-- Parse result of one metadata field container (`div.field`) of an
article page, as read by the field parser:
* `labelText`: raw text of `div.field__label`, `none` if absent;
* `itemTexts`: raw `get_text()` of each `div.field__item`, in document
  order;
* `anchorHref`: `href` of the first `a[href]` in the container, `none`
  if absent;
* `anchorText`: visible text of that anchor (never read by the parser,
  kept to state that the value of a Link field is the href, not it);
* `itemOrPText`: text of the first `div.field__item, p` match, `none`
  if absent. -/
structure Field where
  labelText : Option String
  itemTexts : List String
  anchorHref : Option String
  anchorText : Option String
  itemOrPText : Option String
deriving DecidableEq, Repr

/-- One article record: a Python dict from field name to value,
modelled as an association list in insertion order with unique keys
maintained by `dictInsert`. -/
abbrev Record := List (String × String)

/-- Python dict assignment `d[k] = v`: overwrite in place when the key
exists, append otherwise. -/
def dictInsert (md : Record) (k v : String) : Record :=
  if (md.map Prod.fst).contains k then
    md.map (fun p => if p.1 = k then (k, v) else p)
  else
    md ++ [(k, v)]

/-- Python dict lookup `d.get(k)`. -/
def dictGet (md : Record) (k : String) : Option String :=
  (md.find? (fun p => p.1 = k)).map Prod.snd

/-- `extract_metadata_field`: no label means the field is the abstract
(text of the first `div.field__item, p` match, whitespace-stripped,
under key "Abstract"); a label stripping to exactly "Link" takes the
href of the field's anchor as the value; any other label takes the
concatenation of the items' texts, each with leading/trailing newlines
stripped, with no separator.  `none` models the uncaught crashes when
`select_one` returns no element. -/
def extract_metadata_field (metadata_field : Field)
    (article_metadata : Record) : Option Record :=
  match metadata_field.labelText with
  | none =>
    match metadata_field.itemOrPText with
    | none => none
    | some t => some (dictInsert article_metadata "Abstract" (pyStrip t))
  | some lbl =>
    let field_name := pyStrip lbl
    if field_name = "Link" then
      match metadata_field.anchorHref with
      | none => none
      | some href => some (dictInsert article_metadata field_name href)
    else
      some (dictInsert article_metadata field_name
        (metadata_field.itemTexts.foldl
          (fun item_values item => item_values ++ stripNewlines item) ""))

/-- Parse result of an article detail page, as read by stage 3: the
text of its first `h1` (`none` if absent — the source crashes there)
and the `div.field` containers of `div.node__content` in document
order. -/
structure ArticlePage where
  h1Text : Option String
  fields : List Field
deriving DecidableEq, Repr

/-- The per-article part of `extract_article_data`: start the record
with "Title" ↦ stripped h1 text, then fold every field through
`extract_metadata_field`. -/
def parseArticle (p : ArticlePage) : Option Record :=
  match p.h1Text with
  | none => none
  | some t =>
    p.fields.foldlM (fun md f => extract_metadata_field f md)
      (dictInsert [] "Title" (pyStrip t))

/-- `extract_article_data`: for each article URL, GET it; on non-200
log a warning and skip; otherwise parse the article into a record.  A
crash while parsing aborts the stage (warnings already printed before
the crash point are kept). -/
def extract_article_data (fetch : String → Nat × ArticlePage) :
    List String → Option (List Record) × List String
  | [] => (some [], [])
  | u :: us =>
    let status := (fetch u).1
    let page := (fetch u).2
    if status ≠ 200 then
      let rest := extract_article_data fetch us
      (rest.1, warnMsg u status :: rest.2)
    else
      match parseArticle page with
      | none => (none, [])
      | some md =>
        let rest := extract_article_data fetch us
        (rest.1.map (fun l => md :: l), rest.2)

/-! ### Writer (`write_data_to_csv`) -/

/-- The column rename performed by the writer:
`rename(columns = {"Who age?": "What age?"})`. -/
def renameCol (c : String) : String :=
  if c = "Who age?" then "What age?" else c

/-- Extend a column list with the keys of one record, keeping first
appearance order and skipping keys already present — how
`pd.DataFrame(list_of_dicts)` builds its column index. -/
def addCols (cols : List String) (ks : List String) : List String :=
  ks.foldl (fun acc k => if acc.contains k then acc else acc ++ [k]) cols

/-- Columns of `pd.DataFrame(data)`: the union of the records' keys in
order of first appearance. -/
def columnsOf (data : List Record) : List String :=
  data.foldl (fun acc r => addCols acc (r.map Prod.fst)) []

/-- Apply the column rename to a record's keys (row values are carried
over to the renamed label by `DataFrame.rename`). -/
def renameRecord (r : Record) : Record :=
  r.map (fun p => (renameCol p.1, p.2))

/-- Sort key of a row for `sort_values(by = "Title")`: the row's value
in the "Title" column, `none` for a missing (NaN) cell. -/
def titleKey (r : Record) : Option String := dictGet r "Title"

/-- Lexicographic order on character lists by code point — how Python
compares the title strings in `sort_values(by = "Title")`. -/
def lexLEb : List Char → List Char → Bool
  | [], _ => true
  | _ :: _, [] => false
  | a :: as, b :: bs =>
    if a < b then true else if b < a then false else lexLEb as bs

/-- Row comparison used by `sort_values(by = "Title")`: lexicographic
on the title strings, with missing titles (NaN) ordered last, matching
pandas' default `na_position = "last"`. -/
def titleLEb (a b : Option String) : Bool :=
  match a, b with
  | some x, some y => lexLEb x.data y.data
  | some _, none => true
  | none, some _ => false
  | none, none => true

/-- The row ordering relation of the writer, as a relation on records. -/
def recLE (a b : Record) : Prop := titleLEb (titleKey a) (titleKey b) = true

instance : DecidableRel recLE := fun _ _ => decEq _ _

instance : IsTotal Record recLE where
  total a b := by
    unfold recLE titleLEb
    rcases titleKey a with _ | x <;> rcases titleKey b with _ | y <;> simp
    generalize x.data = xs
    generalize y.data = ys
    induction xs generalizing ys with
    | nil => left; rfl
    | cons c cs ih =>
      cases ys with
      | nil => right; rfl
      | cons d ds =>
        by_cases hcd : c < d
        · left; simp [lexLEb, hcd]
        · by_cases hdc : d < c
          · right; simp [lexLEb, hdc]
          · rcases ih ds with h | h
            · left; simp [lexLEb, hcd, hdc, h]
            · right; simp [lexLEb, hcd, hdc, h]

instance : IsTrans Record recLE where
  trans a b c := by
    unfold recLE titleLEb
    rcases titleKey a with _ | x <;> rcases titleKey b with _ | y <;>
      rcases titleKey c with _ | z <;> simp
    generalize x.data = xs
    generalize y.data = ys
    generalize z.data = zs
    induction xs generalizing ys zs with
    | nil => intro _ _; rfl
    | cons c cs ih =>
      intro hab hbc
      cases ys with
      | nil => simp [lexLEb] at hab
      | cons d ds =>
        cases zs with
        | nil => simp [lexLEb] at hbc
        | cons e es =>
          simp only [lexLEb] at hab hbc ⊢
          by_cases hcd : c < d
          · by_cases hde : d < e
            · simp [lt_trans hcd hde]
            · by_cases hed : e < d
              · simp [hde, hed] at hbc
              · have hde' : d = e := le_antisymm (not_lt.mp hed) (not_lt.mp hde)
                simp [hde' ▸ hcd]
          · by_cases hdc : d < c
            · simp [hcd, hdc] at hab
            · have hcd' : c = d := le_antisymm (not_lt.mp hdc) (not_lt.mp hcd)
              simp only [hcd, hdc, if_false] at hab
              by_cases hde : d < e
              · simp [hcd' ▸ hde]
              · by_cases hed : e < d
                · simp [hde, hed] at hbc
                · have hde' : d = e := le_antisymm (not_lt.mp hed) (not_lt.mp hde)
                  simp only [hde, hed, if_false] at hbc
                  have hce : ¬ c < e := hde' ▸ hcd
                  have hec : ¬ e < c := hde' ▸ hdc
                  simp only [hce, hec, if_false]
                  exact ih ds es hab hbc

/-- The records in output row order: renamed, then sorted ascending by
title.  Pandas' default quicksort is not stable; the claims only
constrain the relative order of rows by their title values, which any
correct sort realises, so a sort is used here. -/
def sortedRecords (data : List Record) : List Record :=
  List.insertionSort recLE (data.map renameRecord)

/-- The serialized output: header row plus one cell row per record,
missing values rendered as empty cells, no index column. -/
structure Csv where
  header : List String
  rows : List (List String)
deriving DecidableEq, Repr

/-- `write_data_to_csv`: build the DataFrame (columns = union of keys),
rename "Who age?" to "What age?", sort by "Title", serialize.
`sort_values(by = "Title")` raises `KeyError` when the frame has no
"Title" column (in particular on an empty record list), modelled by
`Except.error`; in that case nothing is written. -/
def write_data_to_csv (data : List Record) : Except String Csv :=
  let cols := (columnsOf data).map renameCol
  if cols.contains "Title" then
    Except.ok
      ⟨cols,
       (sortedRecords data).map (fun r => cols.map (fun c => (dictGet r c).getD ""))⟩
  else
    Except.error "KeyError: Title"

instance : DecidableEq (Except String Csv) := fun a b =>
  match a, b with
  | .ok x, .ok y => decidable_of_iff (x = y) (by simp)
  | .error x, .error y => decidable_of_iff (x = y) (by simp)
  | .ok _, .error _ => isFalse (by simp)
  | .error _, .ok _ => isFalse (by simp)

/-! ### Concrete fetch stubs used by witnesses and counterexamples -/

/-- Fetch stub: status 200, no pagination. -/
def fetchNoPagination : String → Nat × SearchPage := fun _ => (200, ⟨[]⟩)

/-- Fetch stub: every URL responds 200 with a single pagination link
whose href resolves back to the requested seed. -/
def fetchSelfPagination : String → Nat × SearchPage := fun _ => (200, ⟨["?page=0"]⟩)

/-- A seed that coincides with the resolution of the pagination href
"?page=0" against the site base path. -/
def selfSeed : String := "https://scale.stanford.edu/genai/repository?page=0"

/-- Fetch stub: status 200 with two pagination links. -/
def fetchTwoPages : String → Nat × SearchPage :=
  fun _ => (200, ⟨["?page=0", "?page=1"]⟩)

/-- Fetch stub: two listing pages, the second repeating the first's
title "T1" (modulo surrounding whitespace) with a different href. -/
def fetchTwoListings : String → Nat × ListingPage := fun u =>
  if u = "p1" then (200, ⟨[⟨some "T1", some "/a1"⟩, ⟨some "T2", some "/a2"⟩]⟩)
  else if u = "p2" then (200, ⟨[⟨some " T1 ", some "/a3"⟩]⟩)
  else (404, ⟨[]⟩)

/-- Fetch stub: search-page fetch answering 404 for the URL "bad" and
200 otherwise. -/
def fetchPagesBad : String → Nat × SearchPage :=
  fun u => if u = "bad" then (404, ⟨[]⟩) else (200, ⟨[]⟩)

/-- Fetch stub: listing-page fetch answering 500 for the URL "bad" and
200 otherwise. -/
def fetchListingsBad : String → Nat × ListingPage :=
  fun u => if u = "bad" then (500, ⟨[]⟩) else (200, ⟨[⟨some "T", some "/a"⟩]⟩)

/-- Fetch stub: article-page fetch answering 403 for the URL "bad" and
200 otherwise. -/
def fetchArticlesBad : String → Nat × ArticlePage :=
  fun u => if u = "bad" then (403, ⟨some "T", []⟩) else (200, ⟨some "T", []⟩)

/-- The two records of the C3 example. -/
def exampleRecords : List Record :=
  [[("Title", "B"), ("Who age?", "5-8")], [("Title", "A"), ("Age", "9")]]

/-- The table the C3 example is expected to produce. -/
def exampleCsv : Csv :=
  ⟨["Title", "What age?", "Age"], [["A", "", "9"], ["B", "5-8", ""]]⟩

/-! ### Helper lemmas -/

/-- Looking up just-assigned key returns the just-assigned value. -/
theorem dictGet_dictInsert (md : Record) (k v : String) :
    dictGet (dictInsert md k v) k = some v := by
  unfold dictInsert
  by_cases h : (md.map Prod.fst).contains k
  · rw [if_pos h]
    induction md with
    | nil => simp at h
    | cons p ps ih =>
      by_cases hp : p.1 = k
      · simp [dictGet, List.find?, hp]
      · have hp' : ¬ k = p.1 := fun hk => hp hk.symm
        have h' : (ps.map Prod.fst).contains k := by
          simpa [hp'] using h
        simpa [dictGet, List.find?, hp] using ih h'
  · rw [if_neg h]
    induction md with
    | nil => simp [dictGet, List.find?]
    | cons p ps ih =>
      simp only [List.map_cons, List.contains_cons, Bool.or_eq_true, not_or] at h
      have hp : ¬ p.1 = k := by
        intro hk
        exact h.1 (by simp [hk])
      have h' : ¬ (ps.map Prod.fst).contains k := h.2
      simpa [dictGet, List.find?, hp] using ih h'

/-- Folding string append starting from an appended seed. -/
theorem foldl_string_append (l : List String) :
    ∀ s t : String, l.foldl (· ++ ·) (s ++ t) = s ++ l.foldl (· ++ ·) t := by
  induction l with
  | nil => intro s t; rfl
  | cons a l ih =>
    intro s t
    simpa [String.append_assoc] using ih s (t ++ a)

/-- Unfolding `String.join` one element at a time. -/
theorem string_join_cons (x : String) (xs : List String) :
    String.join (x :: xs) = x ++ String.join xs := by
  show xs.foldl (· ++ ·) ("" ++ x) = x ++ xs.foldl (· ++ ·) ""
  rw [show ("" ++ x) = (x ++ "" : String) by simp]
  exact foldl_string_append xs x ""

/-- The source's accumulator loop over field items equals the
separator-free join of the newline-stripped item texts. -/
theorem foldl_stripNewlines_eq_join (l : List String) :
    ∀ s : String, l.foldl (fun item_values item => item_values ++ stripNewlines item) s
      = s ++ String.join (l.map stripNewlines) := by
  induction l with
  | nil => intro s; simp [String.join]
  | cons a l ih =>
    intro s
    rw [List.foldl_cons, ih (s ++ stripNewlines a), List.map_cons,
      string_join_cons, String.append_assoc]

/-! ### Claims C4, C5, C6, C9: the field parser -/

/-- C4: for every field container with a label element whose (stripped)
label text is not "Link", the field parser succeeds and assigns as the
field's value the concatenation, in document order and with no
separator, of the items' texts with leading and trailing newline
characters stripped per item. -/
theorem claim_C4_concat_items (f : Field) (md : Record) (lbl : String)
    (h1 : f.labelText = some lbl) (h2 : pyStrip lbl ≠ "Link") :
    ∃ md', extract_metadata_field f md = some md' ∧
      dictGet md' (pyStrip lbl) = some (String.join (f.itemTexts.map stripNewlines)) := by
  have he : extract_metadata_field f md =
      some (dictInsert md (pyStrip lbl)
        (f.itemTexts.foldl (fun item_values item => item_values ++ stripNewlines item) "")) := by
    simp [extract_metadata_field, h1, h2]
  refine ⟨_, he, ?_⟩
  rw [dictGet_dictInsert, foldl_stripNewlines_eq_join]
  simp

/-- C4 witness: label "Benefits" with item texts "A\n" and "B\n" yields
the value "AB". -/
theorem claim_C4_concat_items_witness :
    ∃ md', extract_metadata_field ⟨some "Benefits", ["A\n", "B\n"], none, none, none⟩ []
        = some md' ∧ dictGet md' "Benefits" = some "AB" := by
  obtain ⟨md', hmd, hget⟩ :=
    claim_C4_concat_items ⟨some "Benefits", ["A\n", "B\n"], none, none, none⟩ []
      "Benefits" rfl (by decide)
  exact ⟨md', hmd, hget.trans (by decide)⟩

/-- C5: for every field container whose label strips to exactly "Link"
and which contains an anchor with an href, the field parser assigns as
the value of key "Link" exactly that href string, independent of the
anchor's visible text. -/
theorem claim_C5_link_href (f : Field) (md : Record) (lbl href : String)
    (h1 : f.labelText = some lbl) (h2 : pyStrip lbl = "Link")
    (h3 : f.anchorHref = some href) :
    ∃ md', extract_metadata_field f md = some md' ∧
      dictGet md' "Link" = some href := by
  have he : extract_metadata_field f md = some (dictInsert md "Link" href) := by
    simp [extract_metadata_field, h1, h2, h3]
  exact ⟨_, he, dictGet_dictInsert md "Link" href⟩

/-- C5 witness: a "Link" field with href "/papers/x" and visible text
"visible" yields value "/papers/x". -/
theorem claim_C5_link_href_witness :
    ∃ md', extract_metadata_field
        ⟨some "Link", [], some "/papers/x", some "visible", none⟩ [] = some md' ∧
      dictGet md' "Link" = some "/papers/x" :=
  claim_C5_link_href ⟨some "Link", [], some "/papers/x", some "visible", none⟩ []
    "Link" "/papers/x" rfl (by decide) rfl

/-- C6: for every field container with no label element and a non-empty
item-or-paragraph match, the field parser assigns to key "Abstract" the
whitespace-stripped text of that first match. -/
theorem claim_C6_abstract (f : Field) (md : Record) (t : String)
    (h1 : f.labelText = none) (h2 : f.itemOrPText = some t) :
    ∃ md', extract_metadata_field f md = some md' ∧
      dictGet md' "Abstract" = some (pyStrip t) := by
  have he : extract_metadata_field f md = some (dictInsert md "Abstract" (pyStrip t)) := by
    simp [extract_metadata_field, h1, h2]
  exact ⟨_, he, dictGet_dictInsert md "Abstract" (pyStrip t)⟩

/-- C6 witness: an unlabeled field with item text " Summary text "
yields key "Abstract" with value "Summary text". -/
theorem claim_C6_abstract_witness :
    ∃ md', extract_metadata_field ⟨none, [], none, none, some " Summary text "⟩ []
        = some md' ∧ dictGet md' "Abstract" = some "Summary text" := by
  obtain ⟨md', hmd, hget⟩ :=
    claim_C6_abstract ⟨none, [], none, none, some " Summary text "⟩ []
      " Summary text " rfl rfl
  exact ⟨md', hmd, hget.trans (by decide)⟩

/-- C9: for every labeled non-"Link" field container with zero item
elements, the field parser succeeds and assigns the empty string as the
field's value (the key is still added, no error is raised). -/
theorem claim_C9_empty_items (f : Field) (md : Record) (lbl : String)
    (h1 : f.labelText = some lbl) (h2 : pyStrip lbl ≠ "Link")
    (h3 : f.itemTexts = []) :
    ∃ md', extract_metadata_field f md = some md' ∧
      dictGet md' (pyStrip lbl) = some "" := by
  have he : extract_metadata_field f md = some (dictInsert md (pyStrip lbl) "") := by
    simp [extract_metadata_field, h1, h2, h3]
  exact ⟨_, he, dictGet_dictInsert md (pyStrip lbl) ""⟩

/-- C9 witness: a field labeled "Topic" with no items yields value "". -/
theorem claim_C9_empty_items_witness :
    ∃ md', extract_metadata_field ⟨some "Topic", [], none, none, none⟩ []
        = some md' ∧ dictGet md' "Topic" = some "" := by
  obtain ⟨md', hmd, hget⟩ :=
    claim_C9_empty_items ⟨some "Topic", [], none, none, none⟩ [] "Topic" rfl
      (by decide) rfl
  exact ⟨md', hmd, hget.trans (by decide)⟩

/-! ### Claims C7 and C1: page discovery -/

/-- Folding set insertion of resolved pagination hrefs equals the
deduplicated set of the resolved href list. -/
theorem foldl_insert_resolvePage (l : List String) :
    ∀ acc : Finset String,
      l.foldl (fun acc h => insert (resolvePage h) acc) acc
        = (l.map resolvePage).toFinset ∪ acc := by
  induction l with
  | nil => intro acc; simp
  | cons a l ih =>
    intro acc
    rw [List.foldl_cons, ih, List.map_cons, List.toFinset_cons]
    ext x
    simp

/-- C7: a seed whose fetch returns 200 with no pagination links
contributes exactly the singleton of the seed itself. -/
theorem claim_C7_no_pagination (fetch : String → Nat × SearchPage) (s : String)
    (h200 : (fetch s).1 = 200) (hpag : (fetch s).2.pagination = []) :
    (identify_pages_to_scrape fetch [s]).1 = {s} := by
  simp [identify_pages_to_scrape, h200, hpag]

/-- C7 witness: page discovery on one seed with no pagination markup. -/
theorem claim_C7_no_pagination_witness :
    (identify_pages_to_scrape fetchNoPagination ["seedA"]).1 = {"seedA"} :=
  claim_C7_no_pagination fetchNoPagination "seedA" rfl rfl

/-- C1 counterexample: a seed fetched with status 200 and non-empty
pagination whose output nevertheless contains the seed itself, because
the seed equals the resolution of one of the pagination hrefs.  This
refutes the claim's "does not contain the seed URL itself" conjunct. -/
theorem claim_C1_counterexample :
    (fetchSelfPagination selfSeed).1 = 200 ∧
    (fetchSelfPagination selfSeed).2.pagination ≠ [] ∧
    selfSeed ∈ (identify_pages_to_scrape fetchSelfPagination [selfSeed]).1 := by
  refine ⟨rfl, by decide, ?_⟩
  decide

/-- C1 (amended): for every seed whose fetch returns 200 with at least
one pagination link, the output is exactly the set of pagination hrefs
resolved against the fixed site base path, deduplicated; the seed
itself is a member exactly when it coincides with one of those
resolved links (so in particular it is absent whenever no pagination
href resolves to it). -/
theorem claim_C1_pagination_resolved (fetch : String → Nat × SearchPage)
    (s : String) (h200 : (fetch s).1 = 200)
    (hpag : (fetch s).2.pagination ≠ []) :
    (identify_pages_to_scrape fetch [s]).1
        = ((fetch s).2.pagination.map resolvePage).toFinset ∧
      (s ∈ (identify_pages_to_scrape fetch [s]).1 ↔
        s ∈ (fetch s).2.pagination.map resolvePage) := by
  have hres : (identify_pages_to_scrape fetch [s]).1
      = ((fetch s).2.pagination.map resolvePage).toFinset := by
    simp [identify_pages_to_scrape, h200, hpag, foldl_insert_resolvePage]
  exact ⟨hres, by rw [hres]; exact List.mem_toFinset⟩

/-- C1 witness: the amended statement instantiated at a concrete seed
with two pagination links. -/
theorem claim_C1_pagination_resolved_witness :
    (identify_pages_to_scrape fetchTwoPages ["seedB"]).1
        = ((fetchTwoPages "seedB").2.pagination.map resolvePage).toFinset ∧
      ("seedB" ∈ (identify_pages_to_scrape fetchTwoPages ["seedB"]).1 ↔
        "seedB" ∈ (fetchTwoPages "seedB").2.pagination.map resolvePage) :=
  claim_C1_pagination_resolved fetchTwoPages "seedB" rfl (by decide)

/-! ### Claims C3 and C10: the writer -/

/-- C10: on the empty record list the writer fails with the missing
"Title" sort key (pandas `KeyError`) before serializing, so no CSV
value is produced. -/
theorem claim_C10_empty_data :
    write_data_to_csv ([] : List Record) = Except.error "KeyError: Title" := rfl

/-- C3: whenever the writer succeeds, the output header is the
first-appearance union of the records' keys with "Who age?" renamed to
"What age?", and the rows are the renamed records in an order sorted
ascending by title (missing cells rendered as ""); moreover the two
records of the claim produce exactly the stated table. -/
theorem claim_C3_writer_table :
    (∀ (data : List Record) (csv : Csv), write_data_to_csv data = Except.ok csv →
      csv.header = (columnsOf data).map renameCol ∧
      csv.rows = (sortedRecords data).map
        (fun r => csv.header.map (fun c => (dictGet r c).getD "")) ∧
      (sortedRecords data).Perm (data.map renameRecord) ∧
      List.Sorted recLE (sortedRecords data)) ∧
    write_data_to_csv
        [[("Title", "B"), ("Who age?", "5-8")], [("Title", "A"), ("Age", "9")]]
      = Except.ok ⟨["Title", "What age?", "Age"], [["A", "", "9"], ["B", "5-8", ""]]⟩ := by
  constructor
  · intro data csv h
    simp only [write_data_to_csv] at h
    split at h
    · cases h
      exact ⟨rfl, rfl, List.perm_insertionSort recLE _,
        List.sorted_insertionSort recLE _⟩
    · cases h
  · decide

/-- C3 witness: the general characterization applied to the two
records of the claim and the table they produce. -/
theorem claim_C3_writer_table_witness :
    exampleCsv.header = (columnsOf exampleRecords).map renameCol ∧
      exampleCsv.rows = (sortedRecords exampleRecords).map
        (fun r => exampleCsv.header.map (fun c => (dictGet r c).getD "")) ∧
      (sortedRecords exampleRecords).Perm (exampleRecords.map renameRecord) ∧
      List.Sorted recLE (sortedRecords exampleRecords) :=
  claim_C3_writer_table.1 exampleRecords exampleCsv rfl

/-! ### Claim C2: article discovery deduplicates by title -/

/-- Processing concatenated card lists composes in the option monad. -/
theorem procCards_append (cs ds : List Card) :
    ∀ st, procCards (cs ++ ds) st = (procCards cs st).bind (procCards ds) := by
  induction cs with
  | nil => intro st; rfl
  | cons c cs ih =>
    intro st
    cases hc : c.titleAnchorText with
    | none => simp [procCards, hc]
    | some t =>
      by_cases hm : pyStrip t ∈ st.1
      · simp [procCards, hc, hm, ih]
      · cases hh : c.hrefAnchor with
        | none => simp [procCards, hc, hm, hh]
        | some hr => simp [procCards, hc, hm, hh, ih]

/-- On success, the article-URL set grows by exactly the URLs of the
contributing cards. -/
theorem procCards_arts_eq (cs : List Card) :
    ∀ (titles arts titles' arts' : Finset String),
      procCards cs (titles, arts) = some (titles', arts') →
      arts' = arts ∪ ((listContrib cs titles).map Prod.snd).toFinset := by
  induction cs with
  | nil =>
    intro titles arts titles' arts' h
    simp only [procCards, Option.some.injEq, Prod.mk.injEq] at h
    simp [listContrib, ← h.2]
  | cons c cs ih =>
    intro titles arts titles' arts' h
    cases hc : c.titleAnchorText with
    | none => simp [procCards, hc] at h
    | some t =>
      by_cases hm : pyStrip t ∈ titles
      · simp only [procCards, hc, hm, if_true] at h
        have := ih titles arts titles' arts' h
        simp [listContrib, hc, hm, this]
      · cases hh : c.hrefAnchor with
        | none => simp [procCards, hc, hm, hh] at h
        | some hr =>
          simp only [procCards, hc, hm, hh, if_false] at h
          have := ih (insert (pyStrip t) titles) (insert (repo_base_url ++ hr) arts)
            titles' arts' h
          simp only [listContrib, hc, hm, hh, if_false, List.map_cons,
            List.toFinset_cons]
          rw [this, Finset.insert_union, Finset.union_insert]

/-- Every contributing card's title is fresh relative to the titles
already seen. -/
theorem listContrib_fst_not_mem (cs : List Card) :
    ∀ (titles : Finset String) (p : String × String),
      p ∈ listContrib cs titles → p.1 ∉ titles := by
  induction cs with
  | nil => intro titles p hp; simp [listContrib] at hp
  | cons c cs ih =>
    intro titles p hp
    cases hc : c.titleAnchorText with
    | none => simp [listContrib, hc] at hp
    | some t =>
      by_cases hm : pyStrip t ∈ titles
      · simp only [listContrib, hc, hm, if_true] at hp
        exact ih titles p hp
      · cases hh : c.hrefAnchor with
        | none => simp [listContrib, hc, hm, hh] at hp
        | some hr =>
          simp only [listContrib, hc, hm, hh, if_false, List.mem_cons] at hp
          rcases hp with rfl | hp
          · exact hm
          · intro hmem
            exact ih _ p hp (Finset.mem_insert_of_mem hmem)

/-- The contributing cards have pairwise distinct titles. -/
theorem listContrib_titles_nodup (cs : List Card) :
    ∀ titles : Finset String, ((listContrib cs titles).map Prod.fst).Nodup := by
  induction cs with
  | nil => intro titles; simp [listContrib]
  | cons c cs ih =>
    intro titles
    cases hc : c.titleAnchorText with
    | none => simp [listContrib, hc]
    | some t =>
      by_cases hm : pyStrip t ∈ titles
      · simpa [listContrib, hc, hm] using ih titles
      · cases hh : c.hrefAnchor with
        | none => simp [listContrib, hc, hm, hh]
        | some hr =>
          simp only [listContrib, hc, hm, hh, if_false, List.map_cons,
            List.nodup_cons]
          refine ⟨?_, ih _⟩
          intro hmem
          rcases List.mem_map.mp hmem with ⟨p, hp, hfst⟩
          exact listContrib_fst_not_mem cs _ p hp
            (hfst ▸ Finset.mem_insert_self _ _)

/-- The page loop equals one pass of `procCards` over the flattened
cards of the successfully fetched pages. -/
theorem articlesLoop_fst_eq_procCards (fetch : String → Nat × ListingPage) :
    ∀ (l : List String) (st : Finset String × Finset String),
      (articlesLoop fetch l st).1 = procCards (flatCards fetch l) st := by
  intro l
  induction l with
  | nil => intro st; rfl
  | cons u us ih =>
    intro st
    by_cases h200 : (fetch u).1 ≠ 200
    · simp [articlesLoop, flatCards, h200, ih]
    · simp only [articlesLoop, flatCards, h200, if_false]
      rw [procCards_append]
      cases hp : procCards (fetch u).2.cards st with
      | none => simp [hp]
      | some st' => simp [hp, ih st']

/-- C2: whenever article discovery completes, the article-URL set is
exactly the set of URLs of the contributing cards — the first card of
each distinct (stripped) title across all successfully fetched listing
pages — and those contributing cards have pairwise distinct titles, so
no two entries of the set arise from cards sharing identical title
text. -/
theorem claim_C2_title_dedup (fetch : String → Nat × ListingPage)
    (page_urls : List String) (arts : Finset String)
    (h : (identify_articles_to_scrape fetch page_urls).1 = some arts) :
    arts = ((listContrib (flatCards fetch page_urls) ∅).map Prod.snd).toFinset ∧
      ((listContrib (flatCards fetch page_urls) ∅).map Prod.fst).Nodup := by
  refine ⟨?_, listContrib_titles_nodup _ _⟩
  simp only [identify_articles_to_scrape] at h
  rcases ho : (articlesLoop fetch page_urls (∅, ∅)).1 with _ | ⟨titles', arts'⟩
  · rw [ho] at h
    simp at h
  · rw [ho] at h
    have h2 : arts' = arts := by simpa using h
    rw [articlesLoop_fst_eq_procCards] at ho
    have harts := procCards_arts_eq (flatCards fetch page_urls) ∅ ∅ titles' arts' ho
    rw [← h2]
    simpa using harts

/-- C2 witness: two listing pages where the second repeats the title
"T1" with a different href; only the first "T1" card contributes. -/
theorem claim_C2_title_dedup_witness :
    ({"https://scale.stanford.edu/a2", "https://scale.stanford.edu/a1"} : Finset String)
        = ((listContrib (flatCards fetchTwoListings ["p1", "p2"]) ∅).map Prod.snd).toFinset ∧
      ((listContrib (flatCards fetchTwoListings ["p1", "p2"]) ∅).map Prod.fst).Nodup :=
  claim_C2_title_dedup fetchTwoListings ["p1", "p2"]
    {"https://scale.stanford.edu/a2", "https://scale.stanford.edu/a1"} rfl

/-! ### Claim C8: non-200 responses are warned about and skipped -/

/-- One unfolding step of page discovery. -/
theorem identify_pages_cons (fetch : String → Nat × SearchPage) (x : String)
    (xs : List String) :
    identify_pages_to_scrape fetch (x :: xs) =
      (if (fetch x).1 ≠ 200 then
        ((identify_pages_to_scrape fetch xs).1,
         warnMsg x (fetch x).1 :: (identify_pages_to_scrape fetch xs).2)
      else if (fetch x).2.pagination = [] then
        (insert x (identify_pages_to_scrape fetch xs).1,
         (identify_pages_to_scrape fetch xs).2)
      else
        ((fetch x).2.pagination.foldl (fun acc h => insert (resolvePage h) acc)
          (identify_pages_to_scrape fetch xs).1,
         (identify_pages_to_scrape fetch xs).2)) := rfl

/-- Removing a non-200 URL from the seed list leaves the page-discovery
result set unchanged. -/
theorem pages_result_filter_non200 (fetch : String → Nat × SearchPage)
    (u : String) (h : (fetch u).1 ≠ 200) :
    ∀ l : List String,
      (identify_pages_to_scrape fetch l).1
        = (identify_pages_to_scrape fetch (l.filter (fun v => v ≠ u))).1 := by
  intro l
  induction l with
  | nil => rfl
  | cons x xs ih =>
    rw [List.filter_cons]
    by_cases hx : x = u
    · subst hx
      rw [if_neg (by simp), identify_pages_cons, if_pos h]
      exact ih
    · rw [if_pos (by simp [hx]), identify_pages_cons, identify_pages_cons]
      split_ifs <;> simp [ih]

/-- A non-200 URL present in the seed list leaves its warning in the
page-discovery log. -/
theorem pages_warning_non200 (fetch : String → Nat × SearchPage)
    (u : String) (h : (fetch u).1 ≠ 200) :
    ∀ l : List String, u ∈ l →
      warnMsg u (fetch u).1 ∈ (identify_pages_to_scrape fetch l).2 := by
  intro l
  induction l with
  | nil => intro hm; simp at hm
  | cons x xs ih =>
    intro hm
    rw [identify_pages_cons]
    rcases List.mem_cons.mp hm with rfl | hm'
    · simp [h]
    · split_ifs <;> simp [ih hm']

/-- One unfolding step of the article-discovery page loop. -/
theorem articlesLoop_cons (fetch : String → Nat × ListingPage) (x : String)
    (xs : List String) (st : Finset String × Finset String) :
    articlesLoop fetch (x :: xs) st =
      (if (fetch x).1 ≠ 200 then
        ((articlesLoop fetch xs st).1,
         warnMsg x (fetch x).1 :: (articlesLoop fetch xs st).2)
      else
        match procCards (fetch x).2.cards st with
        | none => (none, [])
        | some st' => articlesLoop fetch xs st') := rfl

/-- Removing a non-200 URL from the listing-page list leaves the
article-discovery result unchanged. -/
theorem articles_result_filter_non200 (fetch : String → Nat × ListingPage)
    (u : String) (h : (fetch u).1 ≠ 200) :
    ∀ (l : List String) (st : Finset String × Finset String),
      (articlesLoop fetch l st).1
        = (articlesLoop fetch (l.filter (fun v => v ≠ u)) st).1 := by
  intro l
  induction l with
  | nil => intro st; rfl
  | cons x xs ih =>
    intro st
    rw [List.filter_cons]
    by_cases hx : x = u
    · subst hx
      rw [if_neg (by simp), articlesLoop_cons, if_pos h]
      exact ih st
    · rw [if_pos (by simp [hx]), articlesLoop_cons, articlesLoop_cons]
      by_cases h200 : (fetch x).1 ≠ 200
      · rw [if_pos h200, if_pos h200]
        exact ih st
      · rw [if_neg h200, if_neg h200]
        cases hp : procCards (fetch x).2.cards st with
        | none => rfl
        | some st' => exact ih st'

/-- A non-200 URL present in the listing-page list leaves its warning
in the article-discovery log, provided the stage does not crash. -/
theorem articles_warning_non200 (fetch : String → Nat × ListingPage)
    (u : String) (h : (fetch u).1 ≠ 200) :
    ∀ (l : List String) (st : Finset String × Finset String), u ∈ l →
      (articlesLoop fetch l st).1 ≠ none →
      warnMsg u (fetch u).1 ∈ (articlesLoop fetch l st).2 := by
  intro l
  induction l with
  | nil => intro st hm; simp at hm
  | cons x xs ih =>
    intro st hm hs
    rw [articlesLoop_cons] at hs ⊢
    rcases List.mem_cons.mp hm with rfl | hm'
    · rw [if_pos h]
      simp
    · by_cases h200 : (fetch x).1 ≠ 200
      · rw [if_pos h200] at hs ⊢
        exact List.mem_cons_of_mem _ (ih st hm' hs)
      · rw [if_neg h200] at hs ⊢
        cases hp : procCards (fetch x).2.cards st with
        | none => rw [hp] at hs; exact absurd rfl hs
        | some st' => rw [hp] at hs; exact ih st' hm' hs

/-- One unfolding step of article extraction. -/
theorem extract_article_data_cons (fetch : String → Nat × ArticlePage)
    (x : String) (xs : List String) :
    extract_article_data fetch (x :: xs) =
      (if (fetch x).1 ≠ 200 then
        ((extract_article_data fetch xs).1,
         warnMsg x (fetch x).1 :: (extract_article_data fetch xs).2)
      else
        match parseArticle (fetch x).2 with
        | none => (none, [])
        | some md =>
          ((extract_article_data fetch xs).1.map (fun l => md :: l),
           (extract_article_data fetch xs).2)) := rfl

/-- Removing a non-200 URL from the article list leaves the extraction
result unchanged. -/
theorem extract_result_filter_non200 (fetch : String → Nat × ArticlePage)
    (u : String) (h : (fetch u).1 ≠ 200) :
    ∀ l : List String,
      (extract_article_data fetch l).1
        = (extract_article_data fetch (l.filter (fun v => v ≠ u))).1 := by
  intro l
  induction l with
  | nil => rfl
  | cons x xs ih =>
    rw [List.filter_cons]
    by_cases hx : x = u
    · subst hx
      rw [if_neg (by simp), extract_article_data_cons, if_pos h]
      exact ih
    · rw [if_pos (by simp [hx]), extract_article_data_cons,
        extract_article_data_cons]
      by_cases h200 : (fetch x).1 ≠ 200
      · rw [if_pos h200, if_pos h200]
        exact ih
      · rw [if_neg h200, if_neg h200]
        cases hp : parseArticle (fetch x).2 with
        | none => rfl
        | some md => rw [ih]

/-- A non-200 URL present in the article list leaves its warning in the
extraction log, provided the stage does not crash. -/
theorem extract_warning_non200 (fetch : String → Nat × ArticlePage)
    (u : String) (h : (fetch u).1 ≠ 200) :
    ∀ l : List String, u ∈ l →
      (extract_article_data fetch l).1 ≠ none →
      warnMsg u (fetch u).1 ∈ (extract_article_data fetch l).2 := by
  intro l
  induction l with
  | nil => intro hm; simp at hm
  | cons x xs ih =>
    intro hm hs
    rw [extract_article_data_cons] at hs ⊢
    rcases List.mem_cons.mp hm with rfl | hm'
    · rw [if_pos h]
      simp
    · by_cases h200 : (fetch x).1 ≠ 200
      · rw [if_pos h200] at hs ⊢
        exact List.mem_cons_of_mem _ (ih hm' hs)
      · rw [if_neg h200] at hs ⊢
        cases hp : parseArticle (fetch x).2 with
        | none => rw [hp] at hs; exact absurd rfl hs
        | some md =>
          rw [hp] at hs
          have hs2 : (extract_article_data fetch xs).1 ≠ none := by
            intro hnone
            rw [hnone] at hs
            exact hs rfl
          exact ih hm' hs2

/-- C8: at each of the three fetch stages, a URL answering with a
status other than 200 gets a warning printed, contributes nothing, and
the stage continues: the stage's result equals the result on the input
with that URL removed.  (For the two stages that can crash on
malformed pages, the warning guarantee applies to runs that complete;
a run aborted before reaching the URL never issues the GET.) -/
theorem claim_C8_non200_skip (fp : String → Nat × SearchPage)
    (fa : String → Nat × ListingPage) (fe : String → Nat × ArticlePage)
    (u : String) (l1 l2 l3 : List String)
    (h1 : (fp u).1 ≠ 200) (h2 : (fa u).1 ≠ 200) (h3 : (fe u).1 ≠ 200) :
    ((identify_pages_to_scrape fp l1).1
        = (identify_pages_to_scrape fp (l1.filter (fun v => v ≠ u))).1 ∧
      (u ∈ l1 → warnMsg u (fp u).1 ∈ (identify_pages_to_scrape fp l1).2)) ∧
    ((identify_articles_to_scrape fa l2).1
        = (identify_articles_to_scrape fa (l2.filter (fun v => v ≠ u))).1 ∧
      (u ∈ l2 → (identify_articles_to_scrape fa l2).1 ≠ none →
        warnMsg u (fa u).1 ∈ (identify_articles_to_scrape fa l2).2)) ∧
    ((extract_article_data fe l3).1
        = (extract_article_data fe (l3.filter (fun v => v ≠ u))).1 ∧
      (u ∈ l3 → (extract_article_data fe l3).1 ≠ none →
        warnMsg u (fe u).1 ∈ (extract_article_data fe l3).2)) := by
  refine ⟨⟨pages_result_filter_non200 fp u h1 l1, pages_warning_non200 fp u h1 l1⟩,
    ⟨?_, ?_⟩, ⟨extract_result_filter_non200 fe u h3 l3, extract_warning_non200 fe u h3 l3⟩⟩
  · simp only [identify_articles_to_scrape]
    rw [articles_result_filter_non200 fa u h2 l2 (∅, ∅)]
  · intro hm hs
    simp only [identify_articles_to_scrape] at hs ⊢
    refine articles_warning_non200 fa u h2 l2 (∅, ∅) hm ?_
    intro hnone
    rw [hnone] at hs
    simp at hs

/-- C8 witness: the three stages run on the lists ["good", "bad"] with
fetch stubs answering non-200 exactly for "bad". -/
theorem claim_C8_non200_skip_witness :
    ((identify_pages_to_scrape fetchPagesBad ["good", "bad"]).1
        = (identify_pages_to_scrape fetchPagesBad
            (["good", "bad"].filter (fun v => v ≠ "bad"))).1 ∧
      ("bad" ∈ ["good", "bad"] →
        warnMsg "bad" (fetchPagesBad "bad").1
          ∈ (identify_pages_to_scrape fetchPagesBad ["good", "bad"]).2)) ∧
    ((identify_articles_to_scrape fetchListingsBad ["good", "bad"]).1
        = (identify_articles_to_scrape fetchListingsBad
            (["good", "bad"].filter (fun v => v ≠ "bad"))).1 ∧
      ("bad" ∈ ["good", "bad"] →
        (identify_articles_to_scrape fetchListingsBad ["good", "bad"]).1 ≠ none →
        warnMsg "bad" (fetchListingsBad "bad").1
          ∈ (identify_articles_to_scrape fetchListingsBad ["good", "bad"]).2)) ∧
    ((extract_article_data fetchArticlesBad ["good", "bad"]).1
        = (extract_article_data fetchArticlesBad
            (["good", "bad"].filter (fun v => v ≠ "bad"))).1 ∧
      ("bad" ∈ ["good", "bad"] →
        (extract_article_data fetchArticlesBad ["good", "bad"]).1 ≠ none →
        warnMsg "bad" (fetchArticlesBad "bad").1
          ∈ (extract_article_data fetchArticlesBad ["good", "bad"]).2)) :=
  claim_C8_non200_skip fetchPagesBad fetchListingsBad fetchArticlesBad "bad"
    ["good", "bad"] ["good", "bad"] ["good", "bad"]
    (by decide) (by decide) (by decide)

end GSEScraper
